import Mathlib

/-
Verification development for the ceautil aggregation pipeline (src/utils.py).

Modelling choices:
* A pandas DataFrame is modelled column-major: a row-label list (`index`) plus
  an association list from column name to the column's cell list (`colsD`).
* A cell is `Cell.na` (NaN / missing), `Cell.num q` (a numeric value, modelled
  as a rational), or `Cell.str s` (an object/string value).
* Filesystem inputs are modelled structurally: a simulation directory is the
  list of its scenario subdirectories (files at that level are ignored by
  `get_scenario_subdirs`, so only directories are modelled); a scenario owns
  its geometry CSV files (name + parsed rows) and its Total_demand.csv table.
* Python/pandas exceptions are modelled with `Except String`.
* String helpers (`splitU`, `containsSubstr`, `replaceS`, `lowerS`,
  `sortStrings`) re-implement str.split("_"), the `in` substring test,
  str.replace, str.lower and the sorted order pandas uses, over `List Char`,
  so that they evaluate inside the kernel.
-/

inductive Cell where
  | na : Cell
  | num : Rat → Cell
  | str : String → Cell
  deriving DecidableEq

structure DataFrame where
  index : List String
  colsD : List (String × List Cell)
  deriving DecidableEq

def DataFrame.cols (df : DataFrame) : List String := df.colsD.map Prod.fst

def DataFrame.getCol (df : DataFrame) (c : String) : Option (List Cell) := df.colsD.lookup c

def DataFrame.nRows (df : DataFrame) : Nat := df.index.length

/-- Value of column `c` at the first row labelled `b`; `Cell.na` when absent. -/
def DataFrame.entry (df : DataFrame) (b c : String) : Cell :=
  match df.getCol c, df.index.findIdx? (· == b) with
  | some vs, some i => (vs.get? i).getD Cell.na
  | _, _ => Cell.na

-- ## String helpers (kernel-computable replacements for str methods)

def charLe (a b : Char) : Bool := a.val ≤ b.val

def listLe : List Char → List Char → Bool
  | [], _ => true
  | _ :: _, [] => false
  | a :: as, b :: bs => if a = b then listLe as bs else charLe a b

/-- Lexicographic (code-point) order on strings, as Python compares them. -/
def strLe (a b : String) : Bool := listLe a.data b.data

def startsWithL : List Char → List Char → Bool
  | [], _ => true
  | _ :: _, [] => false
  | a :: as, b :: bs => a = b && startsWithL as bs

def hasSubL (pat : List Char) : List Char → Bool
  | [] => pat.isEmpty
  | l@(_ :: rest) => startsWithL pat l || hasSubL pat rest

/-- Python's `pat in s` substring test. -/
def containsSubstr (s pat : String) : Bool := hasSubL pat.data s.data

/-- Python's `s.endswith(suf)`. -/
def endsWithS (s suf : String) : Bool := startsWithL suf.data.reverse s.data.reverse

def splitOnChar (sep : Char) : List Char → List (List Char)
  | [] => [[]]
  | a :: rest =>
    let r := splitOnChar sep rest
    if a = sep then [] :: r
    else match r with
      | [] => [[a]]
      | g :: gs => (a :: g) :: gs

/-- Python's `s.split("_")`. -/
def splitU (s : String) : List String := (splitOnChar '_' s.data).map String.mk

/-- Python's underscore-join of the name parts. -/
def joinU : List String → String
  | [] => ""
  | p :: ps => ps.foldl (fun acc q => acc ++ "_" ++ q) p

def replaceAux (pat rep : List Char) : Nat → List Char → List Char
  | _, [] => []
  | 0, l => l
  | fuel + 1, a :: rest =>
    if startsWithL pat (a :: rest) then rep ++ replaceAux pat rep fuel ((a :: rest).drop pat.length)
    else a :: replaceAux pat rep fuel rest

/-- Python's `s.replace(pat, rep)` (left-to-right, non-overlapping). -/
def replaceS (s pat rep : String) : String := String.mk (replaceAux pat.data rep.data s.data.length s.data)

/-- Python's `s.lower()`. -/
def lowerS (s : String) : String := String.mk (s.data.map Char.toLower)

def insertLe {α} (le : α → α → Bool) (a : α) : List α → List α
  | [] => [a]
  | b :: l => if le a b then a :: b :: l else b :: insertLe le a l

def sortLe {α} (le : α → α → Bool) : List α → List α
  | [] => []
  | a :: l => insertLe le a (sortLe le l)

/-- Sorted order used by pandas (`Index.difference`, `groupby`, index union). -/
def sortStrings (l : List String) : List String := sortLe strLe l

def pairLe (p q : String × String) : Bool := if p.1 = q.1 then strLe p.2 q.2 else strLe p.1 q.1

/-- First-occurrence deduplication (dict/`~duplicated(keep="first")` order). -/
def uniqFirst {α} [DecidableEq α] : List α → List α
  | [] => []
  | a :: l => a :: (uniqFirst l).filter (· ≠ a)

-- ## Filesystem data model

structure GeoRow where
  orientation : String
  TYPE : String
  AREA_m2 : Rat
  deriving DecidableEq

structure GeoFile where
  name : String
  rows : List GeoRow
  deriving DecidableEq

/-- One scenario subdirectory: its name, the files of
`outputs/data/solar-radiation`, and the parsed `outputs/data/demand/Total_demand.csv`
(raw table, positional index, including the `Name` column). -/
structure Scenario where
  name : String
  geometryFiles : List GeoFile
  demand : DataFrame
  deriving DecidableEq

/-- utils.get_scenario_subdirs: keeps the directory children, in enumeration
order.  A simulation directory is modelled as that list already, files being
skipped by the source's `is_file` test. -/
def get_scenario_subdirs (sim : List Scenario) : List Scenario := sim

-- ## HullGeometryAggregator (utils.get_hull_df_for_simulation)

/-- Building ID: first underscore-delimited token of the file name. -/
def fileId (f : GeoFile) : String := (splitU f.name).headD ""

/-- The (orientation, TYPE) group keys, unique and sorted as groupby sorts them. -/
def pivotKeys (f : GeoFile) : List (String × String) :=
  sortLe pairLe (uniqFirst (f.rows.map (fun r => (r.orientation, r.TYPE))))

def pairSum (f : GeoFile) (o t : String) : Rat :=
  ((f.rows.filter (fun r => r.orientation == o && r.TYPE == t)).map GeoRow.AREA_m2).sum

/-- Flattened pivot columns of one geometry file: `<orientation_lower>_<type_lower>`
mapped to the summed AREA_m2 of that group. -/
def pivotPairs (f : GeoFile) : List (String × Rat) :=
  (pivotKeys f).map (fun p => (lowerS p.1 ++ "_" ++ lowerS p.2, pairSum f p.1 p.2))

/-- The one-row pivoted frame of a geometry file, with the building ID attached
as an `"ID"` column (an empty CSV pivots to an empty frame). -/
def pivotFile (f : GeoFile) : DataFrame :=
  if f.rows.isEmpty then ⟨[], [("ID", [])]⟩
  else ⟨["0"], (pivotPairs f).map (fun p => (p.1, [Cell.num p.2])) ++ [("ID", [Cell.str (fileId f)])]⟩

/-- Column `c` of `df`, or an all-NaN column when `df` lacks `c` (how
`pd.concat` outer-joins differing column sets). -/
def colOrNa (df : DataFrame) (c : String) : List Cell :=
  (df.getCol c).getD (List.replicate df.nRows Cell.na)

/-- The cell a geometry file contributes to hull column `c`: its summed area
when the pair is observed in the file, NaN otherwise. -/
def pivotCell (f : GeoFile) (c : String) : Cell :=
  match (pivotPairs f).lookup c with
  | some v => Cell.num v
  | none => Cell.na

/-- Row-wise `pd.concat(fs, ignore_index=True)`: union of columns in order of
first appearance, missing columns filled with NaN, fresh positional index. -/
def concatRows (fs : List DataFrame) : DataFrame :=
  { index := (List.range ((fs.map DataFrame.nRows).sum)).map toString
    colsD := (uniqFirst (fs.map DataFrame.cols).flatten).map
      (fun c => (c, (fs.map (fun f => colOrNa f c)).flatten)) }

def cellStr : Cell → String
  | Cell.str s => s
  | Cell.num _ => ""
  | Cell.na => "nan"

/-- `df.set_index(c)`: the column's values become the row labels and the column
is removed. -/
def set_index (df : DataFrame) (c : String) : Except String DataFrame :=
  match df.getCol c with
  | some vs => Except.ok ⟨vs.map cellStr, df.colsD.filter (fun p => p.1 != c)⟩
  | none => Except.error ("KeyError: " ++ c)

/-- utils.get_hull_df_for_simulation: pivots every `*_geometry.csv` of the
FIRST scenario subdirectory only, concatenates the one-row frames and indexes
by building ID.  An empty simulation directory raises (subscript [0]); no
matching geometry file makes `pd.concat` of an empty list raise. -/
def get_hull_df_for_simulation (sim : List Scenario) : Except String DataFrame :=
  match get_scenario_subdirs sim with
  | [] => Except.error "list index out of range"
  | s0 :: _ =>
    let files := s0.geometryFiles.filter (fun f => endsWithS f.name "_geometry.csv")
    if files.isEmpty then Except.error "No objects to concatenate"
    else set_index (concatRows (files.map pivotFile)) "ID"

-- ## OrientationAggregator (utils.aggregate_orientations)

def cellR (v : Cell) : Rat :=
  match v with
  | Cell.num q => q
  | _ => 0

/-- Row-wise `df[sel].sum(axis=1)` at row `i` (NaN counts as 0, empty as 0). -/
def sumSelected (df : DataFrame) (sel : List String) (i : Nat) : Rat :=
  (sel.map (fun c => cellR ((((df.getCol c).getD []).get? i).getD Cell.na))).sum

/-- utils.aggregate_orientations (inplace=False branch).  The source computes
the list of `_roofs` columns but line 98 sums the `_windows` columns again for
the `"roofs"` output column; `hull_ag` is the row sum of the three derived
columns.  This model reproduces the source, defect included. -/
def aggregate_orientations (df : DataFrame) : DataFrame :=
  let wallsC := df.cols.filter (fun c => containsSubstr c "_walls")
  let windowsC := df.cols.filter (fun c => containsSubstr c "_windows")
  let _roofsC := df.cols.filter (fun c => containsSubstr c "_roofs")
  let n := df.nRows
  ⟨df.index,
    [("walls", (List.range n).map (fun i => Cell.num (sumSelected df wallsC i))),
     ("windows", (List.range n).map (fun i => Cell.num (sumSelected df windowsC i))),
     ("roofs", (List.range n).map (fun i => Cell.num (sumSelected df windowsC i))),
     ("hull_ag", (List.range n).map (fun i =>
        Cell.num (sumSelected df wallsC i + sumSelected df windowsC i + sumSelected df windowsC i)))]⟩

-- ## DemandLoader (utils.get_annual_demand[s]_for_*)

def insertSecond {α} (x : α) : List α → List α
  | [] => [x]
  | a :: l => a :: x :: l

/-- utils.get_annual_demand_for_scenario: the raw Total_demand table with a
`scenario` column inserted at position 1, holding the scenario name. -/
def get_annual_demand_for_scenario (s : Scenario) : DataFrame :=
  ⟨s.demand.index, insertSecond ("scenario", s.demand.index.map (fun _ => Cell.str s.name)) s.demand.colsD⟩

/-- utils.get_annual_demands_for_simulation: loads every scenario and
concatenates row-wise with a fresh index; `pd.concat` of no frames raises. -/
def get_annual_demands_for_simulation (sim : List Scenario) : Except String DataFrame :=
  match get_scenario_subdirs sim with
  | [] => Except.error "No objects to concatenate"
  | l => Except.ok (concatRows (l.map get_annual_demand_for_scenario))

-- ## AreaNormalizer (utils.as_area_specific)

def isNumericCol (vs : List Cell) : Bool :=
  vs.all (fun v => match v with | Cell.str _ => false | _ => true)

/-- The columns selected for normalization: all numeric columns when
`value_cols` is None, else the numeric ones among the given names (accessing a
missing name raises, as `source_df[col]` does). -/
def effective_value_cols (src : DataFrame) (value_cols : Option (List String)) :
    Except String (List String) :=
  match value_cols with
  | none => Except.ok ((src.colsD.filter (fun p => isNumericCol p.2)).map Prod.fst)
  | some l =>
    if l.all (fun c => (src.getCol c).isSome) then
      Except.ok (l.filter (fun c => isNumericCol ((src.getCol c).getD [])))
    else Except.error "KeyError"

/-- Unit rewriting of utils.as_area_specific lines 176-184: append the area
column to the last underscore token, then kW→W (×1000) and MWh→kWh (×1000). -/
def norm_unit_factor (col area_col : String) : String × Rat :=
  let unit0 := ((splitU col).getLast?).getD ""
  let u0 := unit0 ++ "_" ++ area_col
  let p1 := if containsSubstr u0 "kW" then (replaceS u0 "kW" "W", (1000 : Rat)) else (u0, (1 : Rat))
  if containsSubstr p1.1 "MWh" then (replaceS p1.1 "MWh" "kWh", (1000 : Rat)) else p1

/-- The composite output column name `<name>_<newunit>_<area_col>`. -/
def norm_name (col area_col : String) : String :=
  joinU (splitU col).dropLast ++ "_" ++ (norm_unit_factor col area_col).1

def cellScaleDiv (f : Rat) (v a : Cell) : Cell :=
  match v, a with
  | Cell.num x, Cell.num y => Cell.num (x * f / y)
  | _, _ => Cell.na

/-- `source_df[col] * factor / source_df[area_col]`, row-wise. -/
def norm_values (src : DataFrame) (col area_col : String) : List Cell :=
  List.zipWith (cellScaleDiv (norm_unit_factor col area_col).2)
    ((src.getCol col).getD []) ((src.getCol area_col).getD [])

/-- Python dict assignment `d[k] = v`: overwrites in place or appends. -/
def dictInsert (d : List (String × List Cell)) (k : String) (v : List Cell) :
    List (String × List Cell) :=
  if d.any (fun p => p.1 == k) then d.map (fun p => if p.1 == k then (k, v) else p)
  else d ++ [(k, v)]

def dictOf (entries : List (String × List Cell)) : List (String × List Cell) :=
  entries.foldl (fun d e => dictInsert d e.1 e.2) []

/-- utils.as_area_specific.  Selected columns containing "m2" are skipped by
the loop (and, being in value_cols, are excluded from the pass-through
`columns.difference(value_cols)`, which pandas returns sorted and unique);
`source_df[area_col]` is only touched when some column is actually processed. -/
def as_area_specific (src : DataFrame) (value_cols : Option (List String)) (area_col : String) :
    Except String DataFrame :=
  match effective_value_cols src value_cols with
  | Except.error e => Except.error e
  | Except.ok vcols =>
    let procs := vcols.filter (fun c => !(containsSubstr c "m2"))
    if procs.isEmpty || (src.getCol area_col).isSome then
      let normed := procs.map (fun c => (norm_name c area_col, norm_values src c area_col))
      let nonvalue := sortStrings (uniqFirst (src.cols.filter (fun c => !(vcols.contains c))))
      let passed := nonvalue.map (fun c => (c, (src.getCol c).getD []))
      Except.ok ⟨src.index, dictOf (normed ++ passed)⟩
    else Except.error ("KeyError: " ++ area_col)

-- ## CompactnessCalculator (utils.get_compactness)

def cellNum? (v : Cell) : Option Rat :=
  match v with
  | Cell.num q => some q
  | _ => none

/-- Mean of the numeric entries (pandas mean skips NaN; all-NaN gives NaN). -/
def cellMean (vs : List Cell) : Cell :=
  let nums := vs.filterMap cellNum?
  if nums.isEmpty then Cell.na else Cell.num (nums.sum / (nums.length : Rat))

/-- `area_df[ref_col]` as an (index label, value) series. -/
def refSeries (area_df : DataFrame) (ref_col : String) : List (String × Cell) :=
  area_df.index.zip ((area_df.getCol ref_col).getD [])

/-- `GFAs.groupby(GFAs.index).agg("mean")` evaluated at label `b`. -/
def gfa_mean (area_df : DataFrame) (ref_col : String) (b : String) : Cell :=
  cellMean (((refSeries area_df ref_col).filter (fun e => e.1 == b)).map Prod.snd)

/-- `area_df[ref_col].loc[~area_df.index.duplicated(keep="first")]` at `b`. -/
def gfa_first (area_df : DataFrame) (ref_col : String) (b : String) : Cell :=
  ((refSeries area_df ref_col).lookup b).getD Cell.na

def cellDiv : Cell → Cell → Cell
  | Cell.num x, Cell.num y => Cell.num (x / y)
  | _, _ => Cell.na

/-- utils.get_compactness.  Returns the ratio table together with the two
logged warnings as flags: (table, first-values-mismatch warning, row-count
warning).  Division aligns hull column and per-ID means by label (sorted index
union when the indexes differ, as pandas aligns). -/
def get_compactness (hull_df area_df : DataFrame) (hull_cols : List String) (ref_col : String) :
    Except String (DataFrame × Bool × Bool) :=
  if (area_df.getCol ref_col).isNone then Except.error ("KeyError: " ++ ref_col)
  else if !(hull_cols.all (fun c => (hull_df.getCol c).isSome)) then Except.error "KeyError"
  else
    let ids := sortStrings (uniqFirst area_df.index)
    let GFAs := ids.map (fun b => (b, gfa_mean area_df ref_col b))
    let GFAsfirst := (uniqFirst area_df.index).map (fun b => (b, gfa_first area_df ref_col b))
    let warnArea := !(decide (GFAsfirst = GFAs))
    let warnLen := decide (GFAs.length ≠ hull_df.index.length)
    let residx := if hull_df.index = ids then hull_df.index
                  else sortStrings (uniqFirst (hull_df.index ++ ids))
    Except.ok (⟨residx, hull_cols.map (fun c =>
        (c ++ "_to_" ++ ref_col,
         residx.map (fun b => cellDiv (hull_df.entry b c) ((GFAs.lookup b).getD Cell.na))))⟩,
      warnArea, warnLen)

-- ## CombineResults (utils.combine_results)

/-- `df.reindex(idx)`: label-based row selection; labels absent from `df.index`
give all-NaN rows; a duplicated source index raises. -/
def reindex (df : DataFrame) (idx : List String) : Except String DataFrame :=
  if df.index.Nodup then
    Except.ok ⟨idx, df.colsD.map (fun p => (p.1, idx.map (fun b => df.entry b p.1)))⟩
  else Except.error "cannot reindex on an axis with duplicate labels"

/-- `df[[c1, ..., cn]]` column selection; a missing name raises. -/
def selectCols (df : DataFrame) (cs : List String) : Except String DataFrame :=
  if cs.all (fun c => (df.getCol c).isSome) then
    Except.ok ⟨df.index, cs.map (fun c => (c, (df.getCol c).getD []))⟩
  else Except.error "KeyError"

/-- `pd.concat(fs, axis=1)` for frames sharing one index (the only case
combine_results produces: every part is reindexed onto the demand index). -/
def concatCols (fs : List DataFrame) : Except String DataFrame :=
  match fs with
  | [] => Except.error "No objects to concatenate"
  | f :: rest =>
    if rest.all (fun g => g.index == f.index) then
      Except.ok ⟨f.index, (fs.map DataFrame.colsD).flatten⟩
    else Except.error "cannot align differing indexes"

/-- utils.combine_results: hull pivot of the first scenario, aggregated
orientations, demand over all scenarios indexed by Name, area-specific demand,
compactness, then reindex of the partial tables onto the demand index and
column-wise concatenation. -/
def combine_results (sim : List Scenario) : Except String DataFrame := do
  let df_hull_oriented ← get_hull_df_for_simulation sim
  let df_hull_aggregated := aggregate_orientations df_hull_oriented
  let demandsRaw ← get_annual_demands_for_simulation sim
  let demands ← set_index demandsRaw "Name"
  let demands_m2 ← as_area_specific demands none "Af_m2"
  let cres ← get_compactness df_hull_aggregated demands ["walls", "windows", "hull_ag"] "GFA_m2"
  let df_hull_oriented_exp ← reindex df_hull_oriented demands_m2.index
  let df_hull_aggregated_exp ← reindex df_hull_aggregated demands_m2.index
  let df_compact_exp ← reindex cres.1 demands_m2.index
  let areaRaw ← selectCols demands ["Af_m2", "Aroof_m2", "GFA_m2", "Aocc_m2"]
  concatCols [df_hull_oriented_exp, df_hull_aggregated_exp, df_compact_exp, areaRaw, demands_m2]

-- ## CategoryClassifier (utils.add_compactness_category_col)

def strictIncr : List Rat → Bool
  | [] => true
  | [_] => true
  | a :: b :: r => decide (a < b) && strictIncr (b :: r)

/-- Interval search of `pd.cut` past the first edge: first upper edge with
`q ≤ edge` gives the corresponding label. -/
def cutGo : List Rat → List String → Rat → Cell
  | [], _, _ => Cell.na
  | b :: bs, ls, q =>
    if q ≤ b then (match ls with | l :: _ => Cell.str l | [] => Cell.na)
    else cutGo bs (ls.drop 1) q

/-- `pd.cut(x, bins, labels, include_lowest=True)` on one cell: right-closed
intervals, the first one also closed below; values outside all bins give NaN. -/
def cutCell (bins : List Rat) (labels : List String) : Cell → Cell
  | Cell.num q =>
    (match bins with
     | [] => Cell.na
     | b0 :: rest => if q < b0 then Cell.na else cutGo rest labels q)
  | _ => Cell.na

/-- utils.add_compactness_category_col: rejects `len(bins) != len(labels) + 1`
with a message naming both counts, before touching the table; otherwise bins
`df[col]` (pd.cut also requires monotonically increasing bins) and assigns the
categorical column under `nm`. -/
def add_compactness_category_col (df : DataFrame) (bins : List Rat) (labels : List String)
    (col nm : String) : Except String DataFrame :=
  if bins.length ≠ labels.length + 1 then
    Except.error ("There must be one more bins (" ++ toString bins.length ++ ") than (" ++
      toString labels.length ++ "))!")
  else match df.getCol col with
    | none => Except.error ("KeyError: " ++ col)
    | some vs =>
      if strictIncr bins then
        Except.ok ⟨df.index, dictInsert df.colsD nm (vs.map (cutCell bins labels))⟩
      else Except.error "bins must increase monotonically"

-- ## Accessors for stating properties about `Except` results

def exceptEntry (r : Except String DataFrame) (b c : String) : Cell :=
  match r with
  | Except.ok df => df.entry b c
  | Except.error _ => Cell.na

def exceptCols (r : Except String DataFrame) : List String :=
  match r with
  | Except.ok df => df.cols
  | Except.error _ => []

def resultRows (r : Except String DataFrame) : Nat :=
  match r with
  | Except.ok df => df.nRows
  | Except.error _ => 0

def isOkE {α : Type} (r : Except String α) : Bool :=
  match r with
  | Except.ok _ => true
  | Except.error _ => false

def compactEntry (r : Except String (DataFrame × Bool × Bool)) (b c : String) : Cell :=
  match r with
  | Except.ok t => t.1.entry b c
  | Except.error _ => Cell.na

def compactWarnArea (r : Except String (DataFrame × Bool × Bool)) : Bool :=
  match r with
  | Except.ok t => t.2.1
  | Except.error _ => false

-- ## Concrete fixtures

/-- A one-scenario simulation directory in which building B2 has demand data
but no geometry file: only B1_geometry.csv exists, while Total_demand.csv
lists B1 and B2. -/
def exSimMisaligned : List Scenario :=
  [⟨"sc1",
    [⟨"B1_geometry.csv", [⟨"north", "walls", 10⟩]⟩],
    ⟨["0", "1"],
     [("Name", [Cell.str "B1", Cell.str "B2"]),
      ("Af_m2", [Cell.num 100, Cell.num 50]),
      ("Aroof_m2", [Cell.num 10, Cell.num 5]),
      ("GFA_m2", [Cell.num 200, Cell.num 80]),
      ("Aocc_m2", [Cell.num 90, Cell.num 40]),
      ("Qhs_MWh", [Cell.num 5, Cell.num 2])]⟩⟩]

/-- One scenario whose single geometry file holds the spec's example rows
(north, wall, 10), (north, wall, 5), (south, window, 3). -/
def exSimSingle : List Scenario :=
  [⟨"sc",
    [⟨"B1_geometry.csv",
      [⟨"north", "wall", 10⟩, ⟨"north", "wall", 5⟩, ⟨"south", "window", 3⟩]⟩],
    ⟨[], []⟩⟩]

/-- Two buildings observing disjoint (orientation, type) pairs. -/
def exSimTwoBuildings : List Scenario :=
  [⟨"sc",
    [⟨"B1_geometry.csv", [⟨"north", "wall", 10⟩]⟩,
     ⟨"B2_geometry.csv", [⟨"south", "window", 3⟩]⟩],
    ⟨[], []⟩⟩]

-- ## Shared list lemmas

theorem insertLe_perm {α} (le : α → α → Bool) (a : α) (l : List α) :
    (insertLe le a l).Perm (a :: l) := by
  induction l with
  | nil => exact List.Perm.refl _
  | cons b t ih =>
    by_cases h : le a b
    · simp [insertLe, h]
    · simp only [insertLe, h, if_neg, Bool.false_eq_true, not_false_iff]
      exact ((ih.cons b).trans (List.Perm.swap a b t))

theorem sortLe_perm {α} (le : α → α → Bool) (l : List α) : (sortLe le l).Perm l := by
  induction l with
  | nil => exact List.Perm.refl _
  | cons a t ih => exact (insertLe_perm le a (sortLe le t)).trans (ih.cons a)

theorem mem_sortStrings {c : String} {l : List String} : c ∈ sortStrings l ↔ c ∈ l :=
  (sortLe_perm strLe l).mem_iff

theorem sortStrings_nodup {l : List String} (h : l.Nodup) : (sortStrings l).Nodup :=
  ((sortLe_perm strLe l).nodup_iff).mpr h

theorem uniqFirst_nodup {α} [DecidableEq α] (l : List α) : (uniqFirst l).Nodup := by
  induction l with
  | nil => exact List.nodup_nil
  | cons a t ih =>
    refine List.nodup_cons.mpr ⟨?_, ih.filter _⟩
    intro hmem
    have := List.of_mem_filter hmem
    simp at this

theorem mem_uniqFirst {α} [DecidableEq α] {c : α} {l : List α} : c ∈ uniqFirst l ↔ c ∈ l := by
  induction l with
  | nil => simp [uniqFirst]
  | cons a t ih =>
    simp only [uniqFirst, List.mem_cons, List.mem_filter]
    constructor
    · rintro (rfl | ⟨h1, _⟩)
      · exact .inl rfl
      · exact .inr (ih.mp h1)
    · rintro (rfl | h)
      · exact .inl rfl
      · by_cases hc : c = a
        · exact .inl hc
        · exact .inr ⟨ih.mpr h, by simpa using hc⟩

theorem lookup_keyed_map {β : Type} (ns : List String) (h : String → β) {c : String}
    (hc : c ∈ ns) : (ns.map (fun n => (n, h n))).lookup c = some (h c) := by
  induction ns with
  | nil => cases hc
  | cons a t ih =>
    rcases List.mem_cons.mp hc with rfl | hmem
    · simp [List.lookup]
    · by_cases hca : c = a
      · subst hca; simp [List.lookup]
      · simp only [List.map_cons, List.lookup, beq_eq_false_iff_ne.mpr hca]
        exact ih hmem

theorem lookup_map_of_inj {β : Type} (cs : List String) (F : String → String) (h : String → β)
    {c : String} (hc : c ∈ cs) (hinj : ∀ c' ∈ cs, F c' = F c → c' = c) :
    (cs.map (fun c0 => (F c0, h c0))).lookup (F c) = some (h c) := by
  induction cs with
  | nil => cases hc
  | cons a t ih =>
    by_cases hFa : F c = F a
    · have : a = c := hinj a (List.mem_cons_self a t) hFa.symm
      subst this
      simp [List.lookup]
    · have hct : c ∈ t := by
        rcases List.mem_cons.mp hc with rfl | hmem
        · exact absurd rfl hFa
        · exact hmem
      simp only [List.map_cons, List.lookup, beq_eq_false_iff_ne.mpr hFa]
      exact ih hct (fun c' hc' => hinj c' (List.mem_cons_of_mem a hc'))

theorem lookup_map_value {β γ : Type} (l : List (String × β)) (g : String → β → γ) (c : String) :
    (l.map (fun p => (p.1, g p.1 p.2))).lookup c = (l.lookup c).map (g c) := by
  induction l with
  | nil => rfl
  | cons p t ih =>
    by_cases hc : c = p.1
    · subst hc; simp [List.lookup]
    · simp only [List.map_cons, List.lookup, beq_eq_false_iff_ne.mpr hc]
      exact ih

theorem lookup_isSome_of_mem {β : Type} {l : List (String × β)} {c : String}
    (hc : c ∈ l.map Prod.fst) : ∃ v, l.lookup c = some v := by
  induction l with
  | nil => cases hc
  | cons p t ih =>
    by_cases h : c = p.1
    · subst h; exact ⟨p.2, by simp [List.lookup]⟩
    · have : c ∈ t.map Prod.fst := by
        rcases List.mem_cons.mp hc with h' | h'
        · exact absurd h' h
        · exact h'
      obtain ⟨v, hv⟩ := ih this
      exact ⟨v, by simp only [List.lookup, beq_eq_false_iff_ne.mpr h]; exact hv⟩

theorem lookup_eq_none_of_not_mem {β : Type} {l : List (String × β)} {c : String}
    (hc : c ∉ l.map Prod.fst) : l.lookup c = none := by
  induction l with
  | nil => rfl
  | cons p t ih =>
    have h1 : c ≠ p.1 := fun h => hc (by simp [h])
    have h2 : c ∉ t.map Prod.fst := fun h => hc (List.mem_cons_of_mem _ h)
    simp only [List.lookup, beq_eq_false_iff_ne.mpr h1]
    exact ih h2

theorem lookup_append_left {β : Type} {l₁ : List (String × β)} (l₂ : List (String × β))
    {c : String} {v : β} (h : l₁.lookup c = some v) : (l₁ ++ l₂).lookup c = some v := by
  induction l₁ with
  | nil => cases h
  | cons p t ih =>
    by_cases hc : c = p.1
    · subst hc
      simp only [List.lookup, beq_self_eq_true] at h ⊢
      exact h
    · simp only [List.cons_append, List.lookup, beq_eq_false_iff_ne.mpr hc] at h ⊢
      exact ih h

theorem lookup_append_right {β : Type} {l₁ : List (String × β)} (l₂ : List (String × β))
    {c : String} (h : l₁.lookup c = none) : (l₁ ++ l₂).lookup c = l₂.lookup c := by
  induction l₁ with
  | nil => rfl
  | cons p t ih =>
    by_cases hc : c = p.1
    · subst hc; simp [List.lookup] at h
    · simp only [List.cons_append, List.lookup, beq_eq_false_iff_ne.mpr hc] at h ⊢
      exact ih h

theorem lookup_filter_key {β : Type} (l : List (String × β)) (p : String → Bool) (c : String)
    (hp : p c = true) : (l.filter (fun q => p q.1)).lookup c = l.lookup c := by
  induction l with
  | nil => rfl
  | cons q t ih =>
    by_cases hc : c = q.1
    · subst hc
      simp only [List.filter_cons, hp, List.lookup, beq_self_eq_true]
    · simp only [List.filter_cons]
      by_cases hq : p q.1
      · simp only [hq, if_true, List.lookup, beq_eq_false_iff_ne.mpr hc]
        exact ih
      · simp only [hq, Bool.false_eq_true, if_false, List.lookup]
        rw [ih]
        simp [List.lookup, beq_eq_false_iff_ne.mpr hc]

theorem findIdx?_eq_none_of_not_mem {l : List String} {b : String} (h : b ∉ l) :
    l.findIdx? (· == b) = none := by
  induction l with
  | nil => rfl
  | cons a t ih =>
    have h1 : a ≠ b := fun e => h (by simp [e])
    have h2 : b ∉ t := fun e => h (List.mem_cons_of_mem _ e)
    simp [List.findIdx?_cons, beq_eq_false_iff_ne.mpr h1, ih h2]

theorem findIdx?_of_mem {l : List String} {b : String} (h : b ∈ l) :
    ∃ i, l.findIdx? (· == b) = some i ∧ l.get? i = some b := by
  induction l with
  | nil => cases h
  | cons a t ih =>
    by_cases hab : a = b
    · subst hab
      exact ⟨0, by simp [List.findIdx?_cons], rfl⟩
    · have hbt : b ∈ t := by
        rcases List.mem_cons.mp h with rfl | hmem
        · exact absurd rfl hab
        · exact hmem
      obtain ⟨i, hi, hgi⟩ := ih hbt
      refine ⟨i + 1, ?_, by simpa using hgi⟩
      simp [List.findIdx?_cons, beq_eq_false_iff_ne.mpr hab, hi]

theorem findIdx?_of_nodup {l : List String} {b : String} {k : Nat} (hn : l.Nodup)
    (hk : l.get? k = some b) : l.findIdx? (· == b) = some k := by
  induction l generalizing k with
  | nil => cases hk
  | cons a t ih =>
    cases k with
    | zero =>
      cases hk
      simp [List.findIdx?_cons]
    | succ k' =>
      have hkt : t.get? k' = some b := hk
      have hbt : b ∈ t := List.get?_mem hkt
      have hab : a ≠ b := fun e => (List.nodup_cons.mp hn).1 (e ▸ hbt)
      simp [List.findIdx?_cons, beq_eq_false_iff_ne.mpr hab,
        ih (List.nodup_cons.mp hn).2 hkt]

theorem flatten_singletons {α β : Type} (l : List α) (h : α → β) :
    (l.map (fun x => [h x])).flatten = l.map h := by
  induction l with
  | nil => rfl
  | cons a t ih => simp [ih]

theorem concatRows_nRows (fs : List DataFrame) :
    (concatRows fs).nRows = (fs.map DataFrame.nRows).sum := by
  simp [concatRows, DataFrame.nRows]

-- ## C1

/-- C1: on the spec's example row (north_walls=10, south_walls=5,
east_windows=2) the source's aggregate_orientations yields walls=15,
windows=2 — but roofs=2 and hull_ag=19, not roofs=0 and hull_ag=17 as the
claim states: line 98 of utils.py sums the window columns into `roofs`,
contradicting the function's own docstring ("roof areas"). -/
theorem aggregate_orientations_roofs_defect :
    aggregate_orientations
        ⟨["0"], [("north_walls", [Cell.num 10]), ("south_walls", [Cell.num 5]),
                 ("east_windows", [Cell.num 2])]⟩ =
      ⟨["0"], [("walls", [Cell.num 15]), ("windows", [Cell.num 2]),
               ("roofs", [Cell.num 2]), ("hull_ag", [Cell.num 19])]⟩ := by
  with_unfolding_all rfl

-- ## C5

/-- C5: get_hull_df_for_simulation builds the hull table exclusively from the
first scenario subdirectory — appending further scenarios never changes it —
while get_annual_demands_for_simulation concatenates the demand rows of every
scenario (its row count is the sum over all scenarios). -/
theorem hull_first_scenario_only_demands_all (s0 : Scenario) (rest : List Scenario) :
    get_hull_df_for_simulation (s0 :: rest) = get_hull_df_for_simulation [s0] ∧
    resultRows (get_annual_demands_for_simulation (s0 :: rest)) =
      ((s0 :: rest).map (fun s => (get_annual_demand_for_scenario s).nRows)).sum := by
  constructor
  · rfl
  · show (concatRows ((s0 :: rest).map get_annual_demand_for_scenario)).nRows = _
    rw [concatRows_nRows, List.map_map]
    rfl

-- ## C9

/-- C9: when no file of the first scenario's geometry folder ends in
"_geometry.csv", get_hull_df_for_simulation raises (pd.concat of an empty
collection) instead of returning an empty table. -/
theorem hull_no_geometry_files_raises (s0 : Scenario) (rest : List Scenario)
    (h : ∀ f ∈ s0.geometryFiles, endsWithS f.name "_geometry.csv" = false) :
    get_hull_df_for_simulation (s0 :: rest) = Except.error "No objects to concatenate" := by
  have hf : s0.geometryFiles.filter (fun f => endsWithS f.name "_geometry.csv") = [] := by
    rw [List.filter_eq_nil_iff]
    intro f hfmem
    simp [h f hfmem]
  simp [get_hull_df_for_simulation, get_scenario_subdirs, hf]

theorem hull_no_geometry_files_raises_witness :
    get_hull_df_for_simulation [⟨"sc", [⟨"B1_radiation.csv", []⟩], ⟨[], []⟩⟩] =
      Except.error "No objects to concatenate" :=
  hull_no_geometry_files_raises _ _ (by decide)

-- ## C8

/-- C8: add_compactness_category_col rejects any bins/labels combination with
len(bins) ≠ len(labels) + 1 up front with an error naming both counts (the
table is untouched); with correct counts and bins=[0,1,2,3],
labels=["low","mid","high"], a source value of 1.5 falls in the half-open
interval (1,2] and is labeled "mid"; with only two labels it fails. -/
theorem add_compactness_category_col_spec :
    (∀ (df : DataFrame) (bins : List Rat) (labels : List String) (col nm : String),
        bins.length ≠ labels.length + 1 →
        add_compactness_category_col df bins labels col nm =
          Except.error ("There must be one more bins (" ++ toString bins.length ++ ") than (" ++
            toString labels.length ++ "))!")) ∧
    add_compactness_category_col ⟨["0"], [("hull_ag_to_GFA_m2", [Cell.num (3 / 2)])]⟩
        [0, 1, 2, 3] ["low", "mid", "high"] "hull_ag_to_GFA_m2" "compact_category" =
      Except.ok ⟨["0"], [("hull_ag_to_GFA_m2", [Cell.num (3 / 2)]),
                         ("compact_category", [Cell.str "mid"])]⟩ ∧
    add_compactness_category_col ⟨["0"], [("hull_ag_to_GFA_m2", [Cell.num (3 / 2)])]⟩
        [0, 1, 2, 3] ["low", "mid"] "hull_ag_to_GFA_m2" "compact_category" =
      Except.error "There must be one more bins (4) than (2))!" := by
  refine ⟨?_, ?_, ?_⟩
  · intro df bins labels col nm h
    simp [add_compactness_category_col, h]
  · with_unfolding_all rfl
  · with_unfolding_all rfl

theorem add_compactness_category_col_spec_witness :
    add_compactness_category_col ⟨[], []⟩ [0] ["a"] "x" "y" =
      Except.error "There must be one more bins (1) than (1))!" :=
  add_compactness_category_col_spec.1 _ _ _ _ _ (by decide)

-- ## C7 / C10 shared helper

theorem as_area_specific_single (col : String) (u : String × Rat) (v a : Rat)
    (hm2 : containsSubstr col "m2" = false)
    (hnu : norm_unit_factor col "Af_m2" = u) :
    as_area_specific ⟨["0"], [(col, [Cell.num v]), ("Af_m2", [Cell.num a])]⟩ none "Af_m2" =
      Except.ok ⟨["0"], [(joinU (splitU col).dropLast ++ "_" ++ u.1,
        [Cell.num (v * u.2 / a)])]⟩ := by
  have hne : col ≠ "Af_m2" := by
    intro h
    rw [h] at hm2
    have ht : containsSubstr "Af_m2" "m2" = true := by with_unfolding_all rfl
    rw [ht] at hm2
    cases hm2
  have hAf : (DataFrame.mk ["0"] [(col, [Cell.num v]), ("Af_m2", [Cell.num a])]).getCol "Af_m2"
      = some [Cell.num a] := by
    simp [DataFrame.getCol, List.lookup, beq_eq_false_iff_ne.mpr (Ne.symm hne)]
  have hcol : (DataFrame.mk ["0"] [(col, [Cell.num v]), ("Af_m2", [Cell.num a])]).getCol col
      = some [Cell.num v] := by
    simp [DataFrame.getCol, List.lookup]
  have heff : effective_value_cols
      (DataFrame.mk ["0"] [(col, [Cell.num v]), ("Af_m2", [Cell.num a])]) none
      = Except.ok [col, "Af_m2"] := by
    with_unfolding_all rfl
  have hprocs : List.filter (fun c => !(containsSubstr c "m2")) [col, "Af_m2"] = [col] := by
    have h2 : containsSubstr "Af_m2" "m2" = true := by with_unfolding_all rfl
    simp [List.filter_cons, hm2, h2]
  have hnon : List.filter (fun c => !(List.contains [col, "Af_m2"] c)) [col, "Af_m2"] = [] := by
    rw [List.filter_eq_nil_iff]
    intro c hc
    have helem : List.contains [col, "Af_m2"] c = true := List.elem_eq_true_of_mem hc
    rw [helem]
    simp
  have hname : norm_name col "Af_m2" = joinU (splitU col).dropLast ++ "_" ++ u.1 := by
    simp only [norm_name, hnu]
  have hvals : norm_values (DataFrame.mk ["0"] [(col, [Cell.num v]), ("Af_m2", [Cell.num a])])
      col "Af_m2" = [Cell.num (v * u.2 / a)] := by
    simp only [norm_values, hnu, hcol, hAf, Option.getD_some]
    rfl
  simp only [as_area_specific, heff]
  simp only [hprocs, List.isEmpty_cons, hAf, Option.isSome_some, Bool.or_true, if_true,
    List.map_cons, List.map_nil, hname, hvals, DataFrame.cols, List.map, hnon]
  with_unfolding_all rfl

-- ## C7

/-- C7: a numeric column `<name>_MWh` (not itself containing "m2"), normalized
against reference column Af_m2, becomes `<name>_kWh_Af_m2` with each value
multiplied by 1000 and divided by the row's Af_m2 (MWh→kWh rewrite, ×1000). -/
theorem as_area_specific_MWh_to_kWh (col : String) (parts : List String) (v a : Rat)
    (hsplit : splitU col = parts ++ ["MWh"]) (hm2 : containsSubstr col "m2" = false) :
    as_area_specific ⟨["0"], [(col, [Cell.num v]), ("Af_m2", [Cell.num a])]⟩ none "Af_m2" =
      Except.ok ⟨["0"], [(joinU parts ++ "_" ++ "kWh_Af_m2", [Cell.num (v * 1000 / a)])]⟩ := by
  have hlast : (parts ++ ["MWh"]).getLast? = some "MWh" := by simp
  have hnu : norm_unit_factor col "Af_m2" = ("kWh_Af_m2", 1000) := by
    simp only [norm_unit_factor, hsplit, hlast, Option.getD_some]
    with_unfolding_all rfl
  have h := as_area_specific_single col ("kWh_Af_m2", 1000) v a hm2 hnu
  rw [hsplit, List.dropLast_concat] at h
  exact h

theorem as_area_specific_MWh_to_kWh_witness :
    as_area_specific ⟨["0"], [("Qhs_MWh", [Cell.num 5]), ("Af_m2", [Cell.num 100])]⟩ none "Af_m2" =
        Except.ok ⟨["0"], [(joinU ["Qhs"] ++ "_" ++ "kWh_Af_m2", [Cell.num (5 * 1000 / 100)])]⟩ ∧
      (5 : Rat) * 1000 / 100 = 50 ∧ joinU ["Qhs"] ++ "_" ++ "kWh_Af_m2" = "Qhs_kWh_Af_m2" := by
  refine ⟨?_, by norm_num, by with_unfolding_all rfl⟩
  exact as_area_specific_MWh_to_kWh "Qhs_MWh" ["Qhs"] 5 100 (by with_unfolding_all rfl)
    (by with_unfolding_all rfl)

-- ## C10

/-- C10: a numeric column `<name>_kWh` (not containing "m2") is caught by the
substring test for "kW" inside "kWh": the unit is rewritten kW→W giving
`<name>_Wh_Af_m2`, with a ×1000 factor, each value multiplied by 1000 and
divided by the row's reference area. -/
theorem as_area_specific_kWh_to_Wh (col : String) (parts : List String) (v a : Rat)
    (hsplit : splitU col = parts ++ ["kWh"]) (hm2 : containsSubstr col "m2" = false) :
    as_area_specific ⟨["0"], [(col, [Cell.num v]), ("Af_m2", [Cell.num a])]⟩ none "Af_m2" =
      Except.ok ⟨["0"], [(joinU parts ++ "_" ++ "Wh_Af_m2", [Cell.num (v * 1000 / a)])]⟩ := by
  have hlast : (parts ++ ["kWh"]).getLast? = some "kWh" := by simp
  have hnu : norm_unit_factor col "Af_m2" = ("Wh_Af_m2", 1000) := by
    simp only [norm_unit_factor, hsplit, hlast, Option.getD_some]
    with_unfolding_all rfl
  have h := as_area_specific_single col ("Wh_Af_m2", 1000) v a hm2 hnu
  rw [hsplit, List.dropLast_concat] at h
  exact h

theorem as_area_specific_kWh_to_Wh_witness :
    as_area_specific ⟨["0"], [("Qhs_kWh", [Cell.num 5]), ("Af_m2", [Cell.num 100])]⟩ none "Af_m2" =
        Except.ok ⟨["0"], [(joinU ["Qhs"] ++ "_" ++ "Wh_Af_m2", [Cell.num (5 * 1000 / 100)])]⟩ ∧
      (5 : Rat) * 1000 / 100 = 50 ∧ joinU ["Qhs"] ++ "_" ++ "Wh_Af_m2" = "Qhs_Wh_Af_m2" := by
  refine ⟨?_, by norm_num, by with_unfolding_all rfl⟩
  exact as_area_specific_kWh_to_Wh "Qhs_kWh" ["Qhs"] 5 100 (by with_unfolding_all rfl)
    (by with_unfolding_all rfl)

theorem entry_of_mapped_cols (idx cs : List String) (F : String → String)
    (g : String → String → Cell) {b c : String} (hb : b ∈ idx) (hc : c ∈ cs)
    (hinj : ∀ c' ∈ cs, F c' = F c → c' = c) :
    (DataFrame.mk idx (cs.map (fun c0 => (F c0, idx.map (fun b0 => g c0 b0))))).entry b (F c)
      = g c b := by
  obtain ⟨i, hi, hgi⟩ := findIdx?_of_mem hb
  have hlook := lookup_map_of_inj cs F (fun c0 => idx.map (fun b0 => g c0 b0)) hc hinj
  simp only [DataFrame.entry, DataFrame.getCol, hlook, hi]
  rw [List.get?_map, hgi]
  rfl

-- ## C6

/-- C6: get_compactness divides each requested hull column by the per-building
mean of the reference-area column (rows sharing an ID are averaged), and when
the first occurrence's value differs from that mean for some building the
data-inconsistency warning fires while the call still returns a result rather
than failing. -/
theorem get_compactness_mean_divisor (hull_df area_df : DataFrame) (hull_cols : List String)
    (ref_col b c : String)
    (href : (area_df.getCol ref_col).isSome = true)
    (hcols : hull_cols.all (fun c0 => (hull_df.getCol c0).isSome) = true)
    (hinj : ∀ c' ∈ hull_cols, c' ++ "_to_" ++ ref_col = c ++ "_to_" ++ ref_col → c' = c)
    (hc : c ∈ hull_cols) (hb : b ∈ area_df.index) :
    isOkE (get_compactness hull_df area_df hull_cols ref_col) = true ∧
    compactEntry (get_compactness hull_df area_df hull_cols ref_col) b (c ++ "_to_" ++ ref_col) =
      cellDiv (hull_df.entry b c) (gfa_mean area_df ref_col b) ∧
    (gfa_first area_df ref_col b ≠ gfa_mean area_df ref_col b →
      compactWarnArea (get_compactness hull_df area_df hull_cols ref_col) = true) := by
  obtain ⟨g, hg⟩ := Option.isSome_iff_exists.mp href
  have hb_ids : b ∈ sortStrings (uniqFirst area_df.index) :=
    mem_sortStrings.mpr (mem_uniqFirst.mpr hb)
  simp only [get_compactness, hg, Option.isNone_some, Bool.false_eq_true, if_false,
    hcols, Bool.not_true, isOkE, compactEntry, compactWarnArea]
  refine ⟨trivial, ?_, ?_⟩
  · have hbr : b ∈ (if hull_df.index = sortStrings (uniqFirst area_df.index)
        then hull_df.index
        else sortStrings (uniqFirst (hull_df.index ++ sortStrings (uniqFirst area_df.index)))) := by
      by_cases hcase : hull_df.index = sortStrings (uniqFirst area_df.index)
      · rw [if_pos hcase, hcase]; exact hb_ids
      · rw [if_neg hcase]
        exact mem_sortStrings.mpr (mem_uniqFirst.mpr (List.mem_append.mpr (Or.inr hb_ids)))
    have hmain := entry_of_mapped_cols
      (if hull_df.index = sortStrings (uniqFirst area_df.index)
        then hull_df.index
        else sortStrings (uniqFirst (hull_df.index ++ sortStrings (uniqFirst area_df.index))))
      hull_cols (fun c0 => c0 ++ "_to_" ++ ref_col)
      (fun c0 b0 => cellDiv (hull_df.entry b0 c0)
        (((sortStrings (uniqFirst area_df.index)).map
            (fun b1 => (b1, gfa_mean area_df ref_col b1))).lookup b0 |>.getD Cell.na))
      hbr hc hinj
    have hval := lookup_keyed_map (sortStrings (uniqFirst area_df.index))
      (fun b1 => gfa_mean area_df ref_col b1) hb_ids
    refine hmain.trans ?_
    simp only [hval, Option.getD_some]
  · intro hne
    have hneq : (uniqFirst area_df.index).map (fun b0 => (b0, gfa_first area_df ref_col b0)) ≠
        (sortStrings (uniqFirst area_df.index)).map
          (fun b0 => (b0, gfa_mean area_df ref_col b0)) := by
      intro heq
      have h1 := lookup_keyed_map (uniqFirst area_df.index)
        (fun b0 => gfa_first area_df ref_col b0) (mem_uniqFirst.mpr hb)
      have h2 := lookup_keyed_map (sortStrings (uniqFirst area_df.index))
        (fun b0 => gfa_mean area_df ref_col b0) hb_ids
      rw [heq] at h1
      exact hne (Option.some.inj (h1.symm.trans h2))
    rw [decide_eq_false hneq]
    rfl

theorem get_compactness_mean_divisor_witness :
    isOkE (get_compactness
        ⟨["B1"], [("walls", [Cell.num 205]), ("windows", [Cell.num 0]),
                  ("hull_ag", [Cell.num 205])]⟩
        ⟨["B1", "B1"], [("GFA_m2", [Cell.num 100, Cell.num 105])]⟩
        ["walls", "windows", "hull_ag"] "GFA_m2") = true ∧
    compactEntry (get_compactness
        ⟨["B1"], [("walls", [Cell.num 205]), ("windows", [Cell.num 0]),
                  ("hull_ag", [Cell.num 205])]⟩
        ⟨["B1", "B1"], [("GFA_m2", [Cell.num 100, Cell.num 105])]⟩
        ["walls", "windows", "hull_ag"] "GFA_m2") "B1" ("walls" ++ "_to_" ++ "GFA_m2") =
      cellDiv (DataFrame.entry
        ⟨["B1"], [("walls", [Cell.num 205]), ("windows", [Cell.num 0]),
                  ("hull_ag", [Cell.num 205])]⟩ "B1" "walls")
        (gfa_mean ⟨["B1", "B1"], [("GFA_m2", [Cell.num 100, Cell.num 105])]⟩ "GFA_m2" "B1") ∧
    (gfa_first ⟨["B1", "B1"], [("GFA_m2", [Cell.num 100, Cell.num 105])]⟩ "GFA_m2" "B1" ≠
      gfa_mean ⟨["B1", "B1"], [("GFA_m2", [Cell.num 100, Cell.num 105])]⟩ "GFA_m2" "B1" →
      compactWarnArea (get_compactness
        ⟨["B1"], [("walls", [Cell.num 205]), ("windows", [Cell.num 0]),
                  ("hull_ag", [Cell.num 205])]⟩
        ⟨["B1", "B1"], [("GFA_m2", [Cell.num 100, Cell.num 105])]⟩
        ["walls", "windows", "hull_ag"] "GFA_m2") = true) ∧
    gfa_mean ⟨["B1", "B1"], [("GFA_m2", [Cell.num 100, Cell.num 105])]⟩ "GFA_m2" "B1" =
      Cell.num ((100 + 105) / 2) ∧
    gfa_first ⟨["B1", "B1"], [("GFA_m2", [Cell.num 100, Cell.num 105])]⟩ "GFA_m2" "B1" =
      Cell.num 100 := by
  refine ⟨?_, ?_, ?_, by with_unfolding_all rfl, by with_unfolding_all rfl⟩
  · exact (get_compactness_mean_divisor _ _ _ _ "B1" "walls" (by with_unfolding_all rfl)
      (by with_unfolding_all rfl) (by decide) (by decide) (by decide)).1
  · exact (get_compactness_mean_divisor _ _ _ _ "B1" "walls" (by with_unfolding_all rfl)
      (by with_unfolding_all rfl) (by decide) (by decide) (by decide)).2.1
  · exact (get_compactness_mean_divisor _ _ _ _ "B1" "walls" (by with_unfolding_all rfl)
      (by with_unfolding_all rfl) (by decide) (by decide) (by decide)).2.2

theorem lookup_map_overwrite (d : List (String × List Cell)) (k : String) (v : List Cell)
    (h : d.any (fun p => p.1 == k) = true) :
    (d.map (fun p => if p.1 == k then (k, v) else p)).lookup k = some v := by
  induction d with
  | nil => simp at h
  | cons p t ih =>
    rw [List.map_cons]
    by_cases hpk : p.1 = k
    · rw [if_pos (show (p.1 == k) = true from beq_iff_eq.mpr hpk)]
      rw [List.lookup_cons, beq_self_eq_true]
    · have h1 : (p.1 == k) = false := beq_false_of_ne hpk
      have h2 : (k == p.1) = false := beq_false_of_ne (Ne.symm hpk)
      rw [if_neg (show ¬ ((p.1 == k) = true) from by simp [h1])]
      rw [List.lookup_cons, h2]
      simp only [List.any_cons, Bool.or_eq_true, h1, Bool.false_eq_true, false_or] at h
      exact ih h

theorem lookup_map_overwrite_other (d : List (String × List Cell)) (k : String) (v : List Cell)
    {c : String} (hck : c ≠ k) :
    (d.map (fun p => if p.1 == k then (k, v) else p)).lookup c = d.lookup c := by
  induction d with
  | nil => rfl
  | cons p t ih =>
    rw [List.map_cons]
    by_cases hpk : p.1 = k
    · have h2 : (c == k) = false := beq_false_of_ne hck
      have h3 : (c == p.1) = false := beq_false_of_ne (fun e => hck (hpk ▸ e))
      rw [if_pos (show (p.1 == k) = true from beq_iff_eq.mpr hpk)]
      rw [List.lookup_cons, List.lookup_cons, h2, h3]
      exact ih
    · rw [if_neg (show ¬ ((p.1 == k) = true) from by simp [beq_false_of_ne hpk])]
      by_cases hcp : c = p.1
      · rw [List.lookup_cons, List.lookup_cons, beq_iff_eq.mpr hcp]
      · rw [List.lookup_cons, List.lookup_cons, beq_false_of_ne hcp]
        exact ih

theorem dictInsert_lookup_self (d : List (String × List Cell)) (k : String) (v : List Cell) :
    (dictInsert d k v).lookup k = some v := by
  unfold dictInsert
  by_cases h : d.any (fun p => p.1 == k) = true
  · rw [if_pos h]
    exact lookup_map_overwrite d k v h
  · rw [if_neg h]
    have hd : d.lookup k = none := by
      apply lookup_eq_none_of_not_mem
      intro hmem
      obtain ⟨p, hp, hfst⟩ := List.mem_map.mp hmem
      exact h (List.any_eq_true.mpr ⟨p, hp, by rw [hfst]; exact beq_self_eq_true k⟩)
    rw [lookup_append_right _ hd, List.lookup_cons, beq_self_eq_true]

theorem dictInsert_lookup_other (d : List (String × List Cell)) (k : String) (v : List Cell)
    {c : String} (hck : c ≠ k) :
    (dictInsert d k v).lookup c = d.lookup c := by
  unfold dictInsert
  by_cases h : d.any (fun p => p.1 == k) = true
  · rw [if_pos h]
    exact lookup_map_overwrite_other d k v hck
  · rw [if_neg h]
    cases hd : d.lookup c with
    | some v' => rw [lookup_append_left _ hd]
    | none =>
      rw [lookup_append_right _ hd, List.lookup_cons, beq_false_of_ne hck]
      rfl

theorem dictOf_lookup_last (entries : List (String × List Cell)) (c : String) :
    (dictOf entries).lookup c = entries.reverse.lookup c := by
  suffices h : ∀ (es d : List (String × List Cell)),
      (es.foldl (fun d0 e => dictInsert d0 e.1 e.2) d).lookup c =
        (match es.reverse.lookup c with
          | some v => some v
          | none => d.lookup c) by
    have h0 := h entries []
    rw [dictOf, h0]
    cases entries.reverse.lookup c <;> rfl
  intro es
  induction es with
  | nil => intro d; rfl
  | cons e t ih =>
    intro d
    simp only [List.foldl_cons, ih, List.reverse_cons]
    cases ht : t.reverse.lookup c with
    | some v => rw [lookup_append_left _ ht]
    | none =>
      rw [lookup_append_right _ ht]
      by_cases hce : c = e.1
      · subst hce
        rw [dictInsert_lookup_self, List.lookup_cons, beq_self_eq_true]
      · rw [dictInsert_lookup_other _ _ _ hce, List.lookup_cons, beq_false_of_ne hce]
        cases d.lookup (c) <;> rfl

-- ## C2

/-- C2 counterexample: with the default (all-numeric) selection, the area
column Af_m2 — numeric and containing "m2" — is absent from the output of
as_area_specific: it is skipped by the normalization loop but, being in
value_cols, it is also excluded from the pass-through
`columns.difference(value_cols)`, so it does NOT appear in the result under
its original name as the claim states. -/
theorem as_area_specific_m2_dropped_counterexample :
    "Af_m2" ∈ (DataFrame.mk ["0"] [("Af_m2", [Cell.num 100]), ("Qhs_MWh", [Cell.num 5])]).cols ∧
    containsSubstr "Af_m2" "m2" = true ∧
    "Af_m2" ∉ exceptCols (as_area_specific
      ⟨["0"], [("Af_m2", [Cell.num 100]), ("Qhs_MWh", [Cell.num 5])]⟩ none "Af_m2") := by
  refine ⟨by decide, by with_unfolding_all rfl, by decide⟩

/-- C2 (amended): columns containing "m2" are never unit-rewritten or scaled —
every column NOT selected for normalization passes through unchanged under its
original name — but a selected (numeric) m2 column is dropped from the output
rather than passed through: on the example frame the result holds only the
normalized Qhs column, Af_m2 appearing nowhere. -/
theorem as_area_specific_m2_policy :
    (∀ (src : DataFrame) (value_cols : Option (List String)) (area_col : String)
        (vcols : List String) (df : DataFrame) (c : String),
        effective_value_cols src value_cols = Except.ok vcols →
        as_area_specific src value_cols area_col = Except.ok df →
        c ∈ src.cols → vcols.contains c = false →
        df.getCol c = src.getCol c) ∧
    as_area_specific ⟨["0"], [("Af_m2", [Cell.num 100]), ("Qhs_MWh", [Cell.num 5])]⟩ none "Af_m2"
      = Except.ok ⟨["0"], [("Qhs_kWh_Af_m2", [Cell.num (5 * 1000 / 100)])]⟩ := by
  constructor
  · intro src value_cols area_col vcols df c hv hok hc hnv
    simp only [as_area_specific, hv] at hok
    split at hok
    case isTrue hcond =>
      have hdf := (Except.ok.injEq _ _).mp hok
      subst hdf
      have hcnon : c ∈ sortStrings (uniqFirst
          (src.cols.filter (fun c0 => !(vcols.contains c0)))) := by
        apply mem_sortStrings.mpr
        apply mem_uniqFirst.mpr
        apply List.mem_filter.mpr
        exact ⟨hc, by rw [hnv]; rfl⟩
      have hrev : c ∈ (sortStrings (uniqFirst
          (src.cols.filter (fun c0 => !(vcols.contains c0))))).reverse :=
        List.mem_reverse.mpr hcnon
      have hpass := lookup_keyed_map
        ((sortStrings (uniqFirst (src.cols.filter (fun c0 => !(vcols.contains c0))))).reverse)
        (fun c0 => (src.getCol c0).getD []) hrev
      have hcm : c ∈ src.colsD.map Prod.fst := hc
      obtain ⟨vs0, hvs0⟩ := lookup_isSome_of_mem hcm
      show (DataFrame.mk src.index _).getCol c = src.getCol c
      rw [DataFrame.getCol, dictOf_lookup_last, List.reverse_append, ← List.map_reverse,
        lookup_append_left _ hpass]
      show some ((src.getCol c).getD []) = src.getCol c
      show some ((src.colsD.lookup c).getD []) = src.colsD.lookup c
      rw [hvs0]
      rfl
    case isFalse hcond =>
      cases hok
  · with_unfolding_all rfl

theorem as_area_specific_m2_policy_witness :
    DataFrame.getCol
        ⟨["0"], [("Qhs_kWh_Af_m2", [Cell.num (4 * 1000 / 2)]), ("scenario", [Cell.str "a"])]⟩
        "scenario" =
      DataFrame.getCol
        ⟨["0"], [("scenario", [Cell.str "a"]), ("Qhs_MWh", [Cell.num 4]), ("Af_m2", [Cell.num 2])]⟩
        "scenario" :=
  as_area_specific_m2_policy.1
    ⟨["0"], [("scenario", [Cell.str "a"]), ("Qhs_MWh", [Cell.num 4]), ("Af_m2", [Cell.num 2])]⟩
    none "Af_m2" ["Qhs_MWh", "Af_m2"]
    ⟨["0"], [("Qhs_kWh_Af_m2", [Cell.num (4 * 1000 / 2)]), ("scenario", [Cell.str "a"])]⟩
    "scenario" (by with_unfolding_all rfl) (by with_unfolding_all rfl) (by decide) (by decide)

-- ## C4

/-- C4: combine_results reindexes the oriented hull, aggregated hull and
compactness tables onto the (normalized) demand table's building index: any
building present in the target index but absent from a partial table receives
NaN for every column of that table (universal property of the reindex step),
and on a concretely misaligned simulation — B2 has demand rows but no
geometry file — combine_results returns a combined table without raising,
with NaN hull, aggregate and compactness entries for B2 while B2's own
demand column GFA_m2 survives with its value. -/
theorem combine_results_reindex_policy :
    (∀ (df : DataFrame) (idx : List String) (b c : String),
        df.index.Nodup → b ∈ idx → b ∉ df.index → c ∈ df.cols →
        exceptEntry (reindex df idx) b c = Cell.na) ∧
    isOkE (combine_results exSimMisaligned) = true ∧
    exceptEntry (combine_results exSimMisaligned) "B2" "north_walls" = Cell.na ∧
    exceptEntry (combine_results exSimMisaligned) "B2" "walls" = Cell.na ∧
    exceptEntry (combine_results exSimMisaligned) "B2" "walls_to_GFA_m2" = Cell.na ∧
    exceptEntry (combine_results exSimMisaligned) "B2" "GFA_m2" = Cell.num 80 := by
  refine ⟨?_, ?_, ?_, ?_, ?_, ?_⟩
  · intro df idx b c hn hb hnb hc
    have hner : df.entry b c = Cell.na := by
      cases hgc : df.getCol c with
      | none => simp [DataFrame.entry, hgc]
      | some vs => simp [DataFrame.entry, hgc, findIdx?_eq_none_of_not_mem hnb]
    simp only [reindex, if_pos hn, exceptEntry]
    obtain ⟨i, hi, hgi⟩ := findIdx?_of_mem hb
    rw [DataFrame.cols] at hc
    obtain ⟨vs0, hvs0⟩ := lookup_isSome_of_mem hc
    revert hner
    generalize DataFrame.entry df = g
    intro hner
    have hlook2 : List.lookup c
        (df.colsD.map (fun p => (p.1, idx.map (fun b0 => g b0 p.1)))) =
        some (idx.map (fun b0 => g b0 c)) := by
      rw [lookup_map_value df.colsD (fun k _ => idx.map (fun b0 => g b0 k)) c, hvs0]
      rfl
    simp only [DataFrame.entry, DataFrame.getCol, hlook2, hi]
    rw [List.get?_map, hgi]
    simp [hner]
  · with_unfolding_all rfl
  · with_unfolding_all rfl
  · with_unfolding_all rfl
  · with_unfolding_all rfl
  · with_unfolding_all rfl

theorem combine_results_reindex_policy_witness :
    exceptEntry (reindex ⟨["B1"], [("walls", [Cell.num 1])]⟩ ["B1", "B2"]) "B2" "walls" =
      Cell.na :=
  combine_results_reindex_policy.1 ⟨["B1"], [("walls", [Cell.num 1])]⟩ ["B1", "B2"] "B2" "walls"
    (by decide) (by decide) (by decide) (by decide)

-- ## C3 pivot lemmas

theorem pivot_name_ne_ID (o t : String) : lowerS o ++ "_" ++ lowerS t ≠ "ID" := by
  intro h
  have hd : (lowerS o ++ "_" ++ lowerS t).data = "ID".data := congrArg String.data h
  rw [String.data_append, String.data_append] at hd
  have hmem : '_' ∈ (lowerS o).data ++ "_".data ++ (lowerS t).data := by
    apply List.mem_append.mpr
    left
    apply List.mem_append.mpr
    right
    decide
  rw [hd] at hmem
  simp at hmem

theorem id_not_mem_pivot_names (f : GeoFile) : "ID" ∉ (pivotPairs f).map Prod.fst := by
  intro hm
  obtain ⟨p, hp, hfst⟩ := List.mem_map.mp hm
  rw [pivotPairs] at hp
  obtain ⟨q, _, hq⟩ := List.mem_map.mp hp
  apply pivot_name_ne_ID q.1 q.2
  exact (congrArg Prod.fst hq).trans hfst

theorem pivotFile_of_ne_nil (f : GeoFile) (hf : f.rows ≠ []) :
    pivotFile f = ⟨["0"], (pivotPairs f).map (fun p => (p.1, [Cell.num p.2])) ++
      [("ID", [Cell.str (fileId f)])]⟩ := by
  unfold pivotFile
  rw [if_neg]
  simp [hf]

theorem lookup_pivot_pairs_map (f : GeoFile) (c : String) :
    ((pivotPairs f).map (fun p => (p.1, [Cell.num p.2]))).lookup c =
      ((pivotPairs f).lookup c).map (fun v => [Cell.num v]) :=
  lookup_map_value (pivotPairs f) (fun _ v => [Cell.num v]) c

theorem colOrNa_pivot (f : GeoFile) (hf : f.rows ≠ []) {c : String} (hcid : c ≠ "ID") :
    colOrNa (pivotFile f) c = [pivotCell f c] := by
  rw [colOrNa, pivotFile_of_ne_nil f hf, pivotCell]
  cases hlk : (pivotPairs f).lookup c with
  | some v =>
    have h1 : ((pivotPairs f).map (fun p => (p.1, [Cell.num p.2]))).lookup c =
        some [Cell.num v] := by
      rw [lookup_pivot_pairs_map, hlk]
      rfl
    rw [DataFrame.getCol]
    rw [lookup_append_left _ h1]
    rfl
  | none =>
    have h1 : ((pivotPairs f).map (fun p => (p.1, [Cell.num p.2]))).lookup c = none := by
      rw [lookup_pivot_pairs_map, hlk]
      rfl
    rw [DataFrame.getCol]
    rw [lookup_append_right _ h1, List.lookup_cons, beq_false_of_ne hcid]
    rfl

theorem colOrNa_pivot_id (f : GeoFile) (hf : f.rows ≠ []) :
    colOrNa (pivotFile f) "ID" = [Cell.str (fileId f)] := by
  rw [colOrNa, pivotFile_of_ne_nil f hf]
  have h1 : ((pivotPairs f).map (fun p => (p.1, [Cell.num p.2]))).lookup "ID" = none := by
    apply lookup_eq_none_of_not_mem
    intro hm
    apply id_not_mem_pivot_names f
    obtain ⟨p, hp, hfst⟩ := List.mem_map.mp hm
    obtain ⟨q, hq, hq2⟩ := List.mem_map.mp hp
    exact List.mem_map.mpr ⟨q, hq, (congrArg Prod.fst hq2).trans hfst⟩
  rw [DataFrame.getCol, lookup_append_right _ h1, List.lookup_cons, beq_self_eq_true]
  rfl

theorem pivot_cols (f : GeoFile) (hf : f.rows ≠ []) :
    (pivotFile f).cols = (pivotPairs f).map Prod.fst ++ ["ID"] := by
  rw [DataFrame.cols, pivotFile_of_ne_nil f hf]
  simp

-- ## C3

/-- C3 counterexample: in a scenario whose two geometry files observe disjoint
(orientation, type) pairs, the column south_window exists in the hull table,
yet building B1's entry for it is the missing value NaN — not the zero the
claim asserts. -/
theorem hull_unobserved_pair_counterexample :
    "south_window" ∈ exceptCols (get_hull_df_for_simulation exSimTwoBuildings) ∧
    exceptEntry (get_hull_df_for_simulation exSimTwoBuildings) "B1" "south_window" = Cell.na ∧
    Cell.na ≠ Cell.num 0 := by
  refine ⟨by decide, by with_unfolding_all rfl, by decide⟩

/-- C3 (amended): get_hull_df_for_simulation yields one row per geometry file,
indexed by the filename's first underscore-delimited token, with one column
per (orientation, type) pair observed anywhere in the scenario, where a pair
observed by some building but not by a given building gets a MISSING value
(NaN) for that building — not zero; on the single building with rows
{(north, wall, 10), (north, wall, 5), (south, window, 3)} the result has
north_wall = 15 and south_window = 3. -/
theorem hull_missing_pair_amended :
    (∀ (s : Scenario) (rest : List Scenario) (k : Nat) (c : String) (gf : List GeoFile)
        (_ : s.geometryFiles.filter (fun f => endsWithS f.name "_geometry.csv") = gf)
        (_ : ∀ f ∈ gf, f.rows ≠ [])
        (_ : (gf.map fileId).Nodup)
        (hk : k < gf.length),
        (∃ f ∈ gf, c ∈ (pivotPairs f).map Prod.fst) →
        c ∉ (pivotPairs (gf.get ⟨k, hk⟩)).map Prod.fst →
        c ≠ "ID" →
        exceptEntry (get_hull_df_for_simulation (s :: rest)) (fileId (gf.get ⟨k, hk⟩)) c
          = Cell.na) ∧
    get_hull_df_for_simulation exSimSingle =
      Except.ok ⟨["B1"], [("north_wall", [Cell.num 15]), ("south_window", [Cell.num 3])]⟩ := by
  constructor
  · intro s rest k c gf hgf hrows hids hk hobs hnot hcid
    have hkmem : gf.get ⟨k, hk⟩ ∈ gf := List.get_mem gf k hk
    have hne : gf ≠ [] := by
      intro h
      rw [h] at hk
      exact absurd hk (by simp)
    have hstep : get_hull_df_for_simulation (s :: rest) =
        set_index (concatRows (gf.map pivotFile)) "ID" := by
      simp only [get_hull_df_for_simulation, get_scenario_subdirs, hgf]
      rw [if_neg]
      simp [hne]
    obtain ⟨f0, hf0, hcf0⟩ := hobs
    have hcall : c ∈ uniqFirst ((gf.map pivotFile).map DataFrame.cols).flatten := by
      apply mem_uniqFirst.mpr
      apply List.mem_flatten.mpr
      refine ⟨(pivotFile f0).cols, ?_, ?_⟩
      · exact List.mem_map.mpr ⟨pivotFile f0, List.mem_map.mpr ⟨f0, hf0, rfl⟩, rfl⟩
      · rw [pivot_cols f0 (hrows f0 hf0)]
        exact List.mem_append.mpr (Or.inl hcf0)
    have hIDall : "ID" ∈ uniqFirst ((gf.map pivotFile).map DataFrame.cols).flatten := by
      apply mem_uniqFirst.mpr
      apply List.mem_flatten.mpr
      refine ⟨(pivotFile (gf.get ⟨k, hk⟩)).cols, ?_, ?_⟩
      · exact List.mem_map.mpr ⟨pivotFile (gf.get ⟨k, hk⟩),
          List.mem_map.mpr ⟨gf.get ⟨k, hk⟩, hkmem, rfl⟩, rfl⟩
      · rw [pivot_cols _ (hrows _ hkmem)]
        exact List.mem_append.mpr (Or.inr (by simp))
    have hgcol : ((concatRows (gf.map pivotFile)).colsD).lookup c =
        some ((gf.map pivotFile).map (fun f => colOrNa f c)).flatten :=
      lookup_keyed_map _ (fun c0 => ((gf.map pivotFile).map (fun f => colOrNa f c0)).flatten)
        hcall
    have hval : ((gf.map pivotFile).map (fun f => colOrNa f c)).flatten =
        gf.map (fun f => pivotCell f c) := by
      rw [List.map_map]
      have hcg : gf.map ((fun f => colOrNa f c) ∘ pivotFile) =
          gf.map (fun f => [pivotCell f c]) :=
        List.map_congr_left (fun f hf => colOrNa_pivot f (hrows f hf) hcid)
      rw [hcg, flatten_singletons]
    have hgID : ((concatRows (gf.map pivotFile)).colsD).lookup "ID" =
        some ((gf.map pivotFile).map (fun f => colOrNa f "ID")).flatten :=
      lookup_keyed_map _ (fun c0 => ((gf.map pivotFile).map (fun f => colOrNa f c0)).flatten)
        hIDall
    have hIDval : ((gf.map pivotFile).map (fun f => colOrNa f "ID")).flatten =
        gf.map (fun f => Cell.str (fileId f)) := by
      rw [List.map_map]
      have hcg : gf.map ((fun f => colOrNa f "ID") ∘ pivotFile) =
          gf.map (fun f => [Cell.str (fileId f)]) :=
        List.map_congr_left (fun f hf => colOrNa_pivot_id f (hrows f hf))
      rw [hcg, flatten_singletons]
    have hset : set_index (concatRows (gf.map pivotFile)) "ID" =
        Except.ok ⟨(gf.map (fun f => Cell.str (fileId f))).map cellStr,
          ((concatRows (gf.map pivotFile)).colsD).filter (fun p => p.1 != "ID")⟩ := by
      rw [set_index]
      rw [show (concatRows (gf.map pivotFile)).getCol "ID" =
        some (gf.map (fun f => Cell.str (fileId f))) from hgID.trans (by rw [hIDval])]
    have hidx : (gf.map (fun f => Cell.str (fileId f))).map cellStr = gf.map fileId := by
      rw [List.map_map]
      exact List.map_congr_left (fun f _ => rfl)
    have hflt : (((concatRows (gf.map pivotFile)).colsD).filter
        (fun p => p.1 != "ID")).lookup c = some (gf.map (fun f => pivotCell f c)) := by
      have h0 := lookup_filter_key ((concatRows (gf.map pivotFile)).colsD)
        (fun s => s != "ID") c (bne_iff_ne.mpr hcid)
      rw [hgcol, hval] at h0
      exact h0
    have hkth : (gf.map fileId).get? k = some (fileId (gf.get ⟨k, hk⟩)) := by
      rw [List.get?_map, List.get?_eq_get hk]
      rfl
    have hfind : (gf.map fileId).findIdx? (· == fileId (gf.get ⟨k, hk⟩)) = some k :=
      findIdx?_of_nodup hids hkth
    have hpc : pivotCell (gf.get ⟨k, hk⟩) c = Cell.na := by
      unfold pivotCell
      rw [lookup_eq_none_of_not_mem hnot]
    rw [hstep, hset]
    simp only [exceptEntry, DataFrame.entry, DataFrame.getCol, hflt, hidx, hfind]
    rw [List.get?_map, List.get?_eq_get hk]
    simp
    exact hpc
  · with_unfolding_all rfl

theorem hull_missing_pair_amended_witness :
    exceptEntry (get_hull_df_for_simulation
        [⟨"sc", [⟨"B1_geometry.csv", [⟨"north", "wall", 10⟩]⟩,
                 ⟨"B2_geometry.csv", [⟨"south", "window", 3⟩]⟩], ⟨[], []⟩⟩])
      (fileId ⟨"B1_geometry.csv", [⟨"north", "wall", 10⟩]⟩) "south_window" = Cell.na :=
  hull_missing_pair_amended.1
    ⟨"sc", [⟨"B1_geometry.csv", [⟨"north", "wall", 10⟩]⟩,
            ⟨"B2_geometry.csv", [⟨"south", "window", 3⟩]⟩], ⟨[], []⟩⟩
    [] 0 "south_window"
    [⟨"B1_geometry.csv", [⟨"north", "wall", 10⟩]⟩,
     ⟨"B2_geometry.csv", [⟨"south", "window", 3⟩]⟩]
    (by with_unfolding_all rfl) (by decide) (by decide) (by decide)
    (by decide) (by decide) (by decide)
